import Mathlib

/-
Verification of the core crawler logic of `cherna_vdovitsa`
(src/crawler/mod.rs), shallowly embedded in Lean 4.

The embedding models:
  * `Host` / `compare_hosts`  — the host-relation classifier (mod.rs 210-248);
  * `normalizeUrl`            — the URL-normalization used for the crawled-URL
                                set key (mod.rs 117-123): trim trailing slashes,
                                then take everything after the first scheme
                                separator (a failing lookup models the panic of
                                the unwrap in the source);
  * `processLink` and friends — one step of the per-target coordinator loop
                                (mod.rs 100-170), with the external URL parser
                                abstracted as a `String to Option ParsedUrl`
                                oracle, and the worker pool replaced by a log
                                of dispatched URL strings;
  * `crawl_url`               — the per-URL fetch worker (mod.rs 175-207), with
                                the HTTP client and the HTML parser abstracted
                                into a `WorkerEnv` record of their results;
  * `crawlStep` / `crawlRun`  — the orchestrator loop (mod.rs 43-79), over the
                                finite sequence of targets drained from the
                                channel.
-/

namespace Vdovitsa

/-- Mirror of `url::Host` (external host type): a domain name, an IPv4
address, or an IPv6 address.  The numeric value of an IP address only ever
participates in equality tests in the source, so it is carried as a `Nat`. -/
inductive Host where
  | Domain : String → Host
  | Ipv4 : Nat → Host
  | Ipv6 : Nat → Host
deriving DecidableEq, Repr

/-- Mirror of the `Display` rendering of a host used by
`format!("\x7b\x7d", crawl_target.host())` in the source.  Only the domain
rendering is ever inspected by the theorems below; the decimal rendering of
IP addresses abstracts their dotted/colon forms as an opaque key. -/
def hostString : Host → String
  | Host.Domain d => d
  | Host.Ipv4 n => toString n
  | Host.Ipv6 n => toString n

/-- Mirror of `HostRelation` (mod.rs 251-256). -/
inductive HostRelation where
  | Same
  | Related
  | Unrelated
deriving DecidableEq, Repr

/-- Mirror of `str::split` with a single-character pattern: the list of
(possibly empty) segments between occurrences of `sep`.  An empty string
yields one empty segment, as in Rust. -/
def splitChar (sep : Char) : List Char → List (List Char)
  | [] => [[]]
  | c :: cs =>
    if c = sep then [] :: splitChar sep cs
    else
      match splitChar sep cs with
      | [] => [[c]]
      | x :: xs => (c :: x) :: xs

/-- The last-two-labels view of a domain used by `compare_hosts`
(mod.rs 216-217): `domain.split('.').rev().take(2).collect()`. -/
def lastTwoRevLabels (domain : String) : List (List Char) :=
  (splitChar '.' domain.data).reverse.take 2

/-- Mirror of `Vdovitsa::compare_hosts` (mod.rs 210-248). -/
def compare_hosts (host1 host2 : Host) : HostRelation :=
  match host1, host2 with
  | Host.Domain domain1, Host.Domain domain2 =>
    if domain1 = domain2 then HostRelation.Same
    else if lastTwoRevLabels domain1 = lastTwoRevLabels domain2 then HostRelation.Related
    else HostRelation.Unrelated
  | Host.Ipv4 ip1, Host.Ipv4 ip2 =>
    if ip1 = ip2 then HostRelation.Same else HostRelation.Unrelated
  | Host.Ipv6 ip1, Host.Ipv6 ip2 =>
    if ip1 = ip2 then HostRelation.Same else HostRelation.Unrelated
  | _, _ => HostRelation.Unrelated

/-- Kind discriminator of a host (domain, IPv4, IPv6), used to state the
mixed-kind branch of `compare_hosts` without enumerating the six pairs. -/
def hostKind : Host → Nat
  | Host.Domain _ => 0
  | Host.Ipv4 _ => 1
  | Host.Ipv6 _ => 2

/-- Mirror of `str::trim_end_matches('/')` on the character list of a
string: remove every trailing slash. -/
def trimEndSlashes (l : List Char) : List Char :=
  (List.dropWhile (fun c => c == '/') l.reverse).reverse

/-- Mirror of `str::split_once("://").map(|p| p.1)`: everything after the
first occurrence of the scheme separator, or `none` when there is none. -/
def splitSchemeRest : List Char → Option (List Char)
  | [] => none
  | c :: cs =>
    if c = ':' ∧ cs.take 2 = ['/', '/'] then some (cs.drop 2)
    else splitSchemeRest cs

/-- Mirror of the normalization applied to a serialized same-host URL
(mod.rs 117-123): `s.trim_end_matches('/').split_once("://").unwrap().1`.
The `unwrap` of the source panics when the separator is absent; that case is
`none` here. -/
def normalizeUrl (s : String) : Option String :=
  (splitSchemeRest (trimEndSlashes s.data)).map (fun l => String.mk l)

/-- The character list of the scheme text prepended when resolving a
root-relative link (mod.rs 154-158). -/
def schemeHttpsChars : List Char :=
  ['h', 't', 't', 'p', 's', ':', '/', '/']

/-- Result of the external `Url::parse` for one href string, as far as the
coordinator inspects it: the scheme, the optional host, and the canonical
serialization produced by `to_string()`. -/
structure ParsedUrl where
  scheme : String
  host : Option Host
  serialization : String
deriving DecidableEq, Repr

/-- State of one target coordinator (mod.rs 81-173): the crawled-URL key set,
the log of URL strings handed to spawned `crawl_url` workers (in dispatch
order), and the hosts forwarded upward on the `new_targets` channel. -/
structure CoordState where
  crawled_urls : List String
  dispatched : List String
  new_targets : List Host
deriving DecidableEq, Repr

/-- Initial coordinator state (mod.rs 89-98): the crawled-URL set is seeded
with the bare host string, and one worker is dispatched for the root page
`https://<host>`. -/
def initCoordState (target : Host) : CoordState :=
  { crawled_urls := [hostString target],
    dispatched := [String.append ("https://") (hostString target)],
    new_targets := [] }

/-- One iteration of the inner `for link in new_potential_link` loop of
`crawl_target` (mod.rs 105-169), with the external URL parser passed as an
oracle.  `none` models a panic of one of the source's `unwrap`s (the
normalization unwrap at mod.rs 121). -/
def processLink (parse : String → Option ParsedUrl) (target : Host)
    (st : CoordState) (link : String) : Option CoordState :=
  match parse link with
  | some parsed_url =>
    if parsed_url.scheme = ("https") ∨ parsed_url.scheme = ("http") then
      match parsed_url.host with
      | some parsed_url_host =>
        match compare_hosts parsed_url_host target with
        | HostRelation.Same =>
          match normalizeUrl parsed_url.serialization with
          | none => none
          | some normalized_url =>
            if normalized_url ∈ st.crawled_urls then some st
            else some { st with
              crawled_urls := normalized_url :: st.crawled_urls,
              dispatched := st.dispatched ++ [parsed_url.serialization] }
        | HostRelation.Related =>
          some { st with new_targets := st.new_targets ++ [parsed_url_host] }
        | HostRelation.Unrelated => some st
      | none => some st
    else some st
  | none =>
    let relative_path := String.mk (trimEndSlashes link.data)
    if relative_path.data.head? = some '/' then
      let constructed_link :=
        String.append (String.append ("https://") (hostString target)) relative_path
      if constructed_link ∈ st.crawled_urls then some st
      else some { st with
        crawled_urls := constructed_link :: st.crawled_urls,
        dispatched := st.dispatched ++ [constructed_link] }
    else some st

/-- Processing of one link batch received on the coordinator's channel. -/
def processBatch (parse : String → Option ParsedUrl) (target : Host)
    (st : CoordState) (batch : List String) : Option CoordState :=
  batch.foldlM (processLink parse target) st

/-- Processing of a whole sequence of link batches, starting from the given
state. -/
def processBatches (parse : String → Option ParsedUrl) (target : Host)
    (st : CoordState) (batches : List (List String)) : Option CoordState :=
  batches.foldlM (processBatch parse target) st

/-- A full coordinator run over a finite sequence of link batches, from the
seeded initial state. -/
def runCoordinator (parse : String → Option ParsedUrl) (target : Host)
    (batches : List (List String)) : Option CoordState :=
  processBatches parse target (initCoordState target) batches

/-- Result of `headers.get(CONTENT_TYPE)` then `to_str()`: outer `none` when
the header is absent, inner `none` when its value is not readable as a
string. -/
structure ResponseHeaders where
  content_type : Option (Option String)
deriving DecidableEq, Repr

/-- Everything the external HTTP client and HTML parser contribute to one
`crawl_url` call: the probe result, the GET-then-decode result, and for each
body text the `href` attributes (one `Option String` per anchor element, in
document order) that parsing and selecting `a` produces. -/
structure WorkerEnv where
  response_headers : Option ResponseHeaders
  response_text : Option (Option String)
  anchor_hrefs : String → List (Option String)

/-- Mirror of `str::starts_with` with a string pattern: the pattern's
characters are a prefix of the subject's. -/
def startsWithStr (s pre : String) : Bool :=
  List.isPrefixOf pre.data s.data

/-- Mirror of `HashSet::insert` on an order-preserving duplicate-free list. -/
def insertSet (s : List String) (x : String) : List String :=
  if x ∈ s then s else s ++ [x]

/-- The link-collection loop of `crawl_url` (mod.rs 194-199): insert the
`href` of every anchor element that has one. -/
def collectHrefs (anchors : List (Option String)) : List String :=
  anchors.foldl
    (fun acc a => match a with
      | some href => insertSet acc href
      | none => acc) []

/-- Mirror of `Vdovitsa::crawl_url` (mod.rs 175-207): the value is the
at-most-one message sent on the `new_links` channel (`none` when the worker
returns without sending). -/
def crawl_url (env : WorkerEnv) : Option (List String) :=
  match env.response_headers with
  | none => none
  | some response_headers =>
    match response_headers.content_type with
    | none => none
    | some content_type_value =>
      match content_type_value with
      | none => none
      | some content_type =>
        if ¬ (startsWithStr content_type ("text/html")) then none
        else
          let new_links_to_crawl : List String :=
            match env.response_text with
            | some (some response_text) => collectHrefs (env.anchor_hrefs response_text)
            | _ => []
          if new_links_to_crawl = [] then none
          else some new_links_to_crawl

/-- State of the orchestrator loop of `crawl` (mod.rs 43-79): the global
target set and the log of hosts for which a coordinator task was spawned. -/
structure OrchState where
  crawl_targets : List Host
  spawned : List Host
deriving DecidableEq, Repr

/-- Orchestrator state after the initial spawn loop (mod.rs 50-56): one
coordinator per initial target, target set untouched. -/
def crawlInit (initial_targets : List Host) : OrchState :=
  { crawl_targets := initial_targets, spawned := initial_targets }

/-- One iteration of the `while let Some(new_potential_target)` loop
(mod.rs 61-76): a target already in the set is dropped, a new one is
inserted and gets a coordinator. -/
def crawlStep (st : OrchState) (new_potential_target : Host) : OrchState :=
  if new_potential_target ∈ st.crawl_targets then st
  else { crawl_targets := st.crawl_targets ++ [new_potential_target],
         spawned := st.spawned ++ [new_potential_target] }

/-- A full orchestrator run: the initial spawn loop followed by the
processing of the finite sequence of targets drained from the channel. -/
def crawlRun (initial_targets received : List Host) : OrchState :=
  received.foldl crawlStep (crawlInit initial_targets)

/-- Parse oracle for the duplicate-dispatch run: consistent with the `url`
crate on the two hrefs involved — the root-relative `/a` is not an absolute
URL, and `https://x.com/a` parses with scheme `https`, host `x.com` and
canonical serialization `https://x.com/a`. -/
def dupDemoParse : String → Option ParsedUrl := fun s =>
  if s = ("https://x.com/a") then
    some { scheme := ("https"), host := some (Host.Domain ("x.com")),
           serialization := ("https://x.com/a") }
  else none

/-- Parse oracle for the root-page run: `https://x.com` parses with host
`x.com` and canonical serialization `https://x.com/` (the `url` crate prints
a trailing slash on an empty path). -/
def rootDemoParse : String → Option ParsedUrl := fun s =>
  if s = ("https://x.com") then
    some { scheme := ("https"), host := some (Host.Domain ("x.com")),
           serialization := ("https://x.com/") }
  else none

/-- Worker environment of a reachable HTML page whose body holds three
anchors: two with the same href, one with another. -/
def workerDemoEnv : WorkerEnv :=
  { response_headers := some { content_type := some (some ("text/html; charset=utf-8")) },
    response_text := some (some ("body")),
    anchor_hrefs := fun _ => [some ("/a"), none, some ("/a"), some ("/b")] }

/-- Worker environment whose headers probe fails. -/
def failDemoEnv : WorkerEnv :=
  { response_headers := none, response_text := none, anchor_hrefs := fun _ => [] }

end Vdovitsa

namespace Vdovitsa

theorem compare_hosts_self (h : Host) : compare_hosts h h = HostRelation.Same := by
  cases h <;> simp [compare_hosts]

/-- Claim C3: `compare_hosts` classifies two domain names as `Same` exactly
when the strings are equal (case-sensitive), otherwise as `Related` exactly
when their last two dot-separated labels coincide, otherwise `Unrelated`;
two IPv4 (or two IPv6) addresses as `Same` exactly when equal and otherwise
`Unrelated`; and every mixed-kind pair as `Unrelated`. -/
theorem compare_hosts_spec :
    (∀ d1 d2, compare_hosts (Host.Domain d1) (Host.Domain d2) = HostRelation.Same ↔ d1 = d2)
  ∧ (∀ d1 d2, d1 ≠ d2 →
      (compare_hosts (Host.Domain d1) (Host.Domain d2) = HostRelation.Related ↔
        lastTwoRevLabels d1 = lastTwoRevLabels d2))
  ∧ (∀ d1 d2, d1 ≠ d2 → lastTwoRevLabels d1 ≠ lastTwoRevLabels d2 →
      compare_hosts (Host.Domain d1) (Host.Domain d2) = HostRelation.Unrelated)
  ∧ (∀ n1 n2, compare_hosts (Host.Ipv4 n1) (Host.Ipv4 n2)
      = if n1 = n2 then HostRelation.Same else HostRelation.Unrelated)
  ∧ (∀ n1 n2, compare_hosts (Host.Ipv6 n1) (Host.Ipv6 n2)
      = if n1 = n2 then HostRelation.Same else HostRelation.Unrelated)
  ∧ (∀ h1 h2, hostKind h1 ≠ hostKind h2 → compare_hosts h1 h2 = HostRelation.Unrelated) := by
  refine ⟨?_, ?_, ?_, ?_, ?_, ?_⟩
  · intro d1 d2
    simp only [compare_hosts]
    split_ifs with h1 h2
    · simp [h1]
    · simp [h1]
    · simp [h1]
  · intro d1 d2 hne
    simp only [compare_hosts]
    split_ifs with h1 h2
    · exact absurd h1 hne
    · simp [h2]
    · simp [h2]
  · intro d1 d2 hne hl
    simp only [compare_hosts]
    split_ifs with h1
    · exact absurd h1 hne
    · rfl
  · intro n1 n2; rfl
  · intro n1 n2; rfl
  · intro h1 h2 hk
    cases h1 <;> cases h2 <;> first
      | rfl
      | exact absurd rfl hk

/-- Witness for claim C3 at the concrete pairs of the spec's test list. -/
theorem compare_hosts_spec_witness :
    compare_hosts (Host.Domain ("example.com")) (Host.Domain ("example.com")) = HostRelation.Same
  ∧ compare_hosts (Host.Domain ("a.example.com")) (Host.Domain ("b.example.com")) = HostRelation.Related
  ∧ compare_hosts (Host.Domain ("a.com")) (Host.Domain ("b.com")) = HostRelation.Unrelated
  ∧ compare_hosts (Host.Domain ("x.com")) (Host.Ipv4 16909060) = HostRelation.Unrelated :=
  ⟨(compare_hosts_spec.1 _ _).mpr rfl,
   (compare_hosts_spec.2.1 _ _ (by decide)).mpr (by decide),
   compare_hosts_spec.2.2.1 _ _ (by decide) (by decide),
   compare_hosts_spec.2.2.2.2.2 _ _ (by decide)⟩

/-- Claim C8: the host-relation classifier is symmetric in every branch. -/
theorem compare_hosts_symm (host1 host2 : Host) :
    compare_hosts host1 host2 = compare_hosts host2 host1 := by
  cases host1 with
  | Domain d1 =>
    cases host2 with
    | Domain d2 =>
      simp only [compare_hosts]
      by_cases h : d1 = d2
      · subst h; rfl
      · rw [if_neg h, if_neg (Ne.symm h)]
        by_cases hl : lastTwoRevLabels d1 = lastTwoRevLabels d2
        · rw [if_pos hl, if_pos hl.symm]
        · rw [if_neg hl, if_neg (fun hh => hl hh.symm)]
    | Ipv4 n2 => rfl
    | Ipv6 n2 => rfl
  | Ipv4 n1 =>
    cases host2 with
    | Domain d2 => rfl
    | Ipv4 n2 =>
      simp only [compare_hosts]
      by_cases h : n1 = n2
      · subst h; rfl
      · rw [if_neg h, if_neg (Ne.symm h)]
    | Ipv6 n2 => rfl
  | Ipv6 n1 =>
    cases host2 with
    | Domain d2 => rfl
    | Ipv4 n2 => rfl
    | Ipv6 n2 =>
      simp only [compare_hosts]
      by_cases h : n1 = n2
      · subst h; rfl
      · rw [if_neg h, if_neg (Ne.symm h)]

theorem dropWhile_append_of_ne_nil (p : Char → Bool) (x y : List Char)
    (h : List.dropWhile p x ≠ []) :
    List.dropWhile p (x ++ y) = List.dropWhile p x ++ y := by
  induction x with
  | nil => simp at h
  | cons c cs ih =>
    cases hpc : p c with
    | true =>
      simp only [List.cons_append, List.dropWhile_cons, hpc, if_pos] at h ⊢
      exact ih h
    | false =>
      simp [List.dropWhile_cons, hpc]

theorem trimEndSlashes_append (a k : List Char) (h : trimEndSlashes k ≠ []) :
    trimEndSlashes (a ++ k) = a ++ trimEndSlashes k := by
  have hdw : List.dropWhile (fun c => c == '/') k.reverse ≠ [] := by
    intro hnil
    apply h
    unfold trimEndSlashes
    rw [hnil]
    rfl
  unfold trimEndSlashes
  rw [List.reverse_append, dropWhile_append_of_ne_nil _ _ _ hdw,
      List.reverse_append, List.reverse_reverse]

theorem trimEndSlashes_concat_slash (k : List Char) (h : trimEndSlashes k = k) :
    trimEndSlashes (k ++ ['/']) = k := by
  have hdw : List.dropWhile (fun c => c == '/') k.reverse = k.reverse := by
    have h2 := congrArg List.reverse h
    unfold trimEndSlashes at h2
    rw [List.reverse_reverse] at h2
    exact h2
  unfold trimEndSlashes
  rw [List.reverse_append]
  show (List.dropWhile _ ('/' :: k.reverse)).reverse = k
  rw [List.dropWhile_cons]
  simp [hdw]

theorem splitSchemeRest_scheme_append (k : List Char) :
    splitSchemeRest (schemeHttpsChars ++ k) = some k := rfl

theorem normalizeUrl_scheme_append (k : List Char)
    (htrim : trimEndSlashes k = k) (hne : k ≠ []) :
    normalizeUrl (String.mk (schemeHttpsChars ++ k)) = some (String.mk k) := by
  unfold normalizeUrl
  show (splitSchemeRest (trimEndSlashes (schemeHttpsChars ++ k))).map _ = _
  rw [trimEndSlashes_append _ _ (by rw [htrim]; exact hne), htrim,
      splitSchemeRest_scheme_append]
  rfl

/-- Counterexample for claim C4: normalization is not idempotent as a
string function — it maps `https://x.com/a` to the key `x.com/a`, but
applied to that already-normalized key (which has no scheme separator) it
fails (the `unwrap` at mod.rs 121 would panic) instead of returning the key
unchanged. -/
theorem normalizeUrl_not_idempotent :
    normalizeUrl ("https://x.com/a") = some ("x.com/a")
  ∧ normalizeUrl ("x.com/a") ≠ some ("x.com/a") := by
  exact ⟨by decide, by decide⟩

/-- Claim C4 (amended): normalization strips the scheme (everything through
the first `://` occurrence, after trimming trailing slashes), so
`https://x.com/a` and `http://x.com/a/` normalize to the identical key
`x.com/a`; and it is idempotent up to scheme re-attachment: prepending
`https://` to any slash-trimmed nonempty key and normalizing again yields
the key itself.  (Applied directly to a scheme-less string it fails rather
than acting as the identity.) -/
theorem normalizeUrl_idempotent_up_to_scheme :
    normalizeUrl ("https://x.com/a") = some ("x.com/a")
  ∧ normalizeUrl ("http://x.com/a/") = some ("x.com/a")
  ∧ ∀ k : List Char, trimEndSlashes k = k → k ≠ [] →
      normalizeUrl (String.mk (schemeHttpsChars ++ k)) = some (String.mk k) := by
  refine ⟨by decide, by decide, ?_⟩
  intro k htrim hne
  exact normalizeUrl_scheme_append k htrim hne

/-- Witness for the amended claim C4 at the key `x.com/a`. -/
theorem normalizeUrl_idempotent_up_to_scheme_witness :
    trimEndSlashes (("x.com/a").data) = ("x.com/a").data
  ∧ normalizeUrl (String.mk (schemeHttpsChars ++ ("x.com/a").data))
      = some (String.mk (("x.com/a").data)) :=
  ⟨by decide, normalizeUrl_idempotent_up_to_scheme.2.2 _ (by decide) (by decide)⟩

/-- Claim C1 fails on the code: the coordinator for host `x.com`, receiving
the root-relative href `/a` and then the absolute href `https://x.com/a` —
two raw hrefs that normalize to the same key `x.com/a` — dispatches a URL
worker for each, because the relative branch (mod.rs 159-165) keys the
crawled-URL set by the scheme-carrying constructed link while the absolute
branch (mod.rs 117-124) keys it by the scheme-stripped normalization.  The
run below dispatches `https://x.com/a` twice. -/
theorem crawl_target_duplicate_dispatch :
    (runCoordinator dupDemoParse (Host.Domain ("x.com"))
        [[("/a")], [("https://x.com/a")]]).map CoordState.dispatched
      = some [("https://x.com"), ("https://x.com/a"), ("https://x.com/a")]
  ∧ normalizeUrl ("https://x.com/a")
      = normalizeUrl (String.append (String.append ("https://") ("x.com")) ("/a")) := by
  exact ⟨by decide, by decide⟩

/-- Claim C9: the coordinator state is seeded with exactly the bare host
string in the crawled-URL set and one dispatched worker for the root page
`https://<host>`; the serialization `https://<host>/` of a later link to the
root page normalizes to the seeded bare-host key; and processing any link
that parses to the target host with a serialization normalizing to a key
already in the crawled-URL set leaves the state unchanged — in particular no
second worker is dispatched for the root page. -/
theorem crawl_target_root_seeding (target : Host)
    (parse : String → Option ParsedUrl) (st : CoordState) (link : String)
    (pu : ParsedUrl)
    (hmem : hostString target ∈ st.crawled_urls)
    (hparse : parse link = some pu)
    (hscheme : pu.scheme = ("https") ∨ pu.scheme = ("http"))
    (hhost : pu.host = some target)
    (hnorm : normalizeUrl pu.serialization = some (hostString target))
    (htrim : trimEndSlashes (hostString target).data = (hostString target).data)
    (hne : (hostString target).data ≠ []) :
    initCoordState target =
      { crawled_urls := [hostString target],
        dispatched := [String.append ("https://") (hostString target)],
        new_targets := [] }
  ∧ normalizeUrl (String.mk (schemeHttpsChars ++ ((hostString target).data ++ ['/'])))
      = some (hostString target)
  ∧ processLink parse target st link = some st := by
  refine ⟨rfl, ?_, ?_⟩
  · have hts : trimEndSlashes ((hostString target).data ++ ['/']) = (hostString target).data :=
      trimEndSlashes_concat_slash _ htrim
    unfold normalizeUrl
    show (splitSchemeRest (trimEndSlashes (schemeHttpsChars ++ ((hostString target).data ++ ['/'])))).map _ = _
    rw [trimEndSlashes_append _ _ (by rw [hts]; exact hne), hts,
        splitSchemeRest_scheme_append]
    rfl
  · simp [processLink, hparse, hhost, compare_hosts_self, hnorm, hscheme, hmem]

/-- Witness for claim C9: for target `x.com`, a later root link
`https://x.com` (serialized `https://x.com/` by the parser) leaves the
seeded initial state unchanged. -/
theorem crawl_target_root_seeding_witness :
    hostString (Host.Domain ("x.com")) ∈ (initCoordState (Host.Domain ("x.com"))).crawled_urls
  ∧ (initCoordState (Host.Domain ("x.com")) =
      { crawled_urls := [hostString (Host.Domain ("x.com"))],
        dispatched := [String.append ("https://") (hostString (Host.Domain ("x.com")))],
        new_targets := [] }
    ∧ normalizeUrl (String.mk (schemeHttpsChars ++ ((hostString (Host.Domain ("x.com"))).data ++ ['/'])))
        = some (hostString (Host.Domain ("x.com")))
    ∧ processLink rootDemoParse (Host.Domain ("x.com"))
        (initCoordState (Host.Domain ("x.com"))) ("https://x.com")
        = some (initCoordState (Host.Domain ("x.com")))) :=
  ⟨by decide,
   crawl_target_root_seeding (Host.Domain ("x.com")) rootDemoParse
     (initCoordState (Host.Domain ("x.com"))) ("https://x.com") _
     (by decide) rfl (Or.inl rfl) rfl (by decide) (by decide) (by decide)⟩

theorem mem_insertSet (acc : List String) (x s : String) :
    s ∈ insertSet acc x ↔ s ∈ acc ∨ s = x := by
  unfold insertSet
  split_ifs with h
  · constructor
    · exact fun hs => Or.inl hs
    · rintro (hs | rfl)
      · exact hs
      · exact h
  · simp [List.mem_append]

theorem nodup_insertSet (acc : List String) (x : String) (h : acc.Nodup) :
    (insertSet acc x).Nodup := by
  unfold insertSet
  split_ifs with hmem
  · exact h
  · simp [List.nodup_append, h, hmem]

theorem mem_collectHrefs_fold (l : List (Option String)) :
    ∀ (acc : List String) (s : String),
      (s ∈ l.foldl
        (fun acc a => match a with
          | some href => insertSet acc href
          | none => acc) acc)
      ↔ s ∈ acc ∨ some s ∈ l := by
  induction l with
  | nil =>
    intro acc s
    simp
  | cons a l ih =>
    intro acc s
    cases a with
    | none =>
      rw [List.foldl_cons]
      show (s ∈ l.foldl _ acc) ↔ _
      rw [ih]
      simp
    | some href =>
      rw [List.foldl_cons]
      show (s ∈ l.foldl _ (insertSet acc href)) ↔ _
      rw [ih, mem_insertSet]
      simp [or_assoc]

theorem nodup_collectHrefs_fold (l : List (Option String)) :
    ∀ acc : List String, acc.Nodup →
      (l.foldl
        (fun acc a => match a with
          | some href => insertSet acc href
          | none => acc) acc).Nodup := by
  induction l with
  | nil =>
    intro acc h
    simpa using h
  | cons a l ih =>
    intro acc h
    cases a with
    | none =>
      rw [List.foldl_cons]
      exact ih acc h
    | some href =>
      rw [List.foldl_cons]
      exact ih _ (nodup_insertSet acc href h)

theorem mem_collectHrefs (anchors : List (Option String)) (s : String) :
    s ∈ collectHrefs anchors ↔ some s ∈ anchors := by
  unfold collectHrefs
  rw [mem_collectHrefs_fold]
  simp

theorem nodup_collectHrefs (anchors : List (Option String)) :
    (collectHrefs anchors).Nodup :=
  nodup_collectHrefs_fold anchors [] List.nodup_nil

/-- Claim C5: the worker's output is at most one message by construction
(the model's value is the optional single send of mod.rs 204-206); when the
probe succeeds with a `text/html` content type and the GET and text decode
succeed, then if no anchor contributes an href nothing is sent, and if at
least one anchor carries an href exactly one message is sent holding
precisely the set of literal href values, duplicates collapsed. -/
theorem crawl_url_sends_link_set (env : WorkerEnv) (content_type response_text : String)
    (hheaders : env.response_headers = some { content_type := some (some content_type) })
    (hct : startsWithStr content_type ("text/html") = true)
    (hbody : env.response_text = some (some response_text)) :
    (collectHrefs (env.anchor_hrefs response_text) = [] → crawl_url env = none)
  ∧ ∀ href, some href ∈ env.anchor_hrefs response_text →
      ∃ msg, crawl_url env = some msg ∧ msg.Nodup
        ∧ ∀ s, s ∈ msg ↔ some s ∈ env.anchor_hrefs response_text := by
  have hc : crawl_url env
      = if collectHrefs (env.anchor_hrefs response_text) = [] then none
        else some (collectHrefs (env.anchor_hrefs response_text)) := by
    simp [crawl_url, hheaders, hbody, hct]
  constructor
  · intro hnil
    rw [hc, if_pos hnil]
  · intro href hhref
    have hne : collectHrefs (env.anchor_hrefs response_text) ≠ [] := by
      intro h0
      have hm := (mem_collectHrefs (env.anchor_hrefs response_text) href).mpr hhref
      rw [h0] at hm
      exact absurd hm (List.not_mem_nil _)
    refine ⟨collectHrefs (env.anchor_hrefs response_text), ?_, nodup_collectHrefs _, ?_⟩
    · rw [hc, if_neg hne]
    · intro s
      exact mem_collectHrefs _ s

/-- Witness for claim C5 at a page with anchors `/a`, `/a` and `/b` (and one
anchor with no href): one message, the two-element set. -/
theorem crawl_url_sends_link_set_witness :
    startsWithStr ("text/html; charset=utf-8") ("text/html") = true
  ∧ ((collectHrefs (workerDemoEnv.anchor_hrefs ("body")) = [] → crawl_url workerDemoEnv = none)
    ∧ ∀ href, some href ∈ workerDemoEnv.anchor_hrefs ("body") →
        ∃ msg, crawl_url workerDemoEnv = some msg ∧ msg.Nodup
          ∧ ∀ s, s ∈ msg ↔ some s ∈ workerDemoEnv.anchor_hrefs ("body")) :=
  ⟨by decide,
   crawl_url_sends_link_set workerDemoEnv ("text/html; charset=utf-8") ("body")
     rfl (by decide) rfl⟩

/-- Claim C6: every per-fetch failure of the worker — failed probe, absent
Content-Type header, unreadable Content-Type value, content type not
prefixed with `text/html`, failed GET, failed body decode — makes
`crawl_url` return without sending any message (and the model's return type
carries no error channel to the coordinator). -/
theorem crawl_url_absorbs_failures (env : WorkerEnv) :
    (env.response_headers = none → crawl_url env = none)
  ∧ (∀ rh, env.response_headers = some rh → rh.content_type = none →
      crawl_url env = none)
  ∧ (∀ rh, env.response_headers = some rh → rh.content_type = some none →
      crawl_url env = none)
  ∧ (∀ rh ct, env.response_headers = some rh → rh.content_type = some (some ct) →
      startsWithStr ct ("text/html") = false → crawl_url env = none)
  ∧ (∀ rh ct, env.response_headers = some rh → rh.content_type = some (some ct) →
      startsWithStr ct ("text/html") = true → env.response_text = none →
      crawl_url env = none)
  ∧ (∀ rh ct, env.response_headers = some rh → rh.content_type = some (some ct) →
      startsWithStr ct ("text/html") = true → env.response_text = some none →
      crawl_url env = none) := by
  refine ⟨?_, ?_, ?_, ?_, ?_, ?_⟩
  · intro h
    simp [crawl_url, h]
  · intro rh h1 h2
    simp [crawl_url, h1, h2]
  · intro rh h1 h2
    simp [crawl_url, h1, h2]
  · intro rh ct h1 h2 h3
    simp [crawl_url, h1, h2, h3]
  · intro rh ct h1 h2 h3 h4
    simp [crawl_url, h1, h2, h3, h4, collectHrefs]
  · intro rh ct h1 h2 h3 h4
    simp [crawl_url, h1, h2, h3, h4, collectHrefs]

/-- Witness for claim C6 at an environment whose probe fails. -/
theorem crawl_url_absorbs_failures_witness :
    failDemoEnv.response_headers = none ∧ crawl_url failDemoEnv = none :=
  ⟨rfl, (crawl_url_absorbs_failures failDemoEnv).1 rfl⟩

theorem crawl_targets_sublist (received : List Host) :
    ∀ st : OrchState,
      st.crawl_targets.Sublist ((received.foldl crawlStep st).crawl_targets) := by
  induction received with
  | nil =>
    intro st
    exact List.Sublist.refl _
  | cons t ts ih =>
    intro st
    rw [List.foldl_cons]
    refine List.Sublist.trans ?_ (ih (crawlStep st t))
    unfold crawlStep
    split_ifs
    · exact List.Sublist.refl _
    · exact List.sublist_append_left _ _

theorem spawned_sublist (received : List Host) :
    ∀ st : OrchState,
      st.spawned.Sublist ((received.foldl crawlStep st).spawned) := by
  induction received with
  | nil =>
    intro st
    exact List.Sublist.refl _
  | cons t ts ih =>
    intro st
    rw [List.foldl_cons]
    refine List.Sublist.trans ?_ (ih (crawlStep st t))
    unfold crawlStep
    split_ifs
    · exact List.Sublist.refl _
    · exact List.sublist_append_left _ _

theorem crawlRun_invariant (received : List Host) :
    ∀ st : OrchState, st.crawl_targets = st.spawned → st.spawned.Nodup →
      (received.foldl crawlStep st).crawl_targets = (received.foldl crawlStep st).spawned
      ∧ (received.foldl crawlStep st).spawned.Nodup := by
  induction received with
  | nil =>
    intro st h1 h2
    exact ⟨h1, h2⟩
  | cons t ts ih =>
    intro st h1 h2
    rw [List.foldl_cons]
    apply ih
    · unfold crawlStep
      split_ifs
      · exact h1
      · simp [h1]
    · unfold crawlStep
      split_ifs with hmem
      · exact h2
      · have hnm : t ∉ st.spawned := by
          rw [← h1]
          exact hmem
        simp [List.nodup_append, h2, hnm]

/-- Claim C7: the orchestrator's target set only ever grows along the run
(every earlier set is a sublist of every later one); a received target
already in the set changes nothing and spawns nothing; and with distinct
initial targets every host gets at most one coordinator — in particular a
host that is both a seed and a received discovery is spawned exactly once. -/
theorem crawl_targets_insertion_only (initial received : List Host)
    (hnd : initial.Nodup) :
    (∀ st : OrchState,
      st.crawl_targets.Sublist ((received.foldl crawlStep st).crawl_targets))
  ∧ (∀ (st : OrchState) (t : Host), t ∈ st.crawl_targets → crawlStep st t = st)
  ∧ (crawlRun initial received).spawned.Nodup
  ∧ (∀ h0, h0 ∈ initial → (crawlRun initial received).spawned.count h0 = 1) := by
  have hinv := crawlRun_invariant received (crawlInit initial) rfl hnd
  refine ⟨crawl_targets_sublist received, ?_, hinv.2, ?_⟩
  · intro st t hmem
    unfold crawlStep
    rw [if_pos hmem]
  · intro h0 hmem
    have hm : h0 ∈ (crawlRun initial received).spawned := by
      have hsub := spawned_sublist received (crawlInit initial)
      exact hsub.mem hmem
    exact List.count_eq_one_of_mem hinv.2 hm

/-- Witness for claim C7: seed `x.com`, then receive `x.com` (rediscovered)
and `y.com`; `x.com` is spawned exactly once. -/
theorem crawl_targets_insertion_only_witness :
    ([Host.Domain ("x.com")] : List Host).Nodup
  ∧ (crawlRun [Host.Domain ("x.com")]
      [Host.Domain ("x.com"), Host.Domain ("y.com")]).spawned.count
        (Host.Domain ("x.com")) = 1 :=
  ⟨by decide,
   (crawl_targets_insertion_only [Host.Domain ("x.com")]
      [Host.Domain ("x.com"), Host.Domain ("y.com")] (by decide)).2.2.2
     (Host.Domain ("x.com")) (by decide)⟩

/-- Claim C10: a run of `crawl` from an empty initial target set spawns no
coordinator and, since only spawned coordinators ever hold a sender for the
new-target channel, drains an empty message sequence: the final state is the
empty initial state, after which the completion line is printed. -/
theorem crawl_empty_initial_targets :
    crawlRun [] [] = crawlInit []
  ∧ (crawlRun [] []).spawned = []
  ∧ (crawlRun [] []).crawl_targets = [] :=
  ⟨rfl, rfl, rfl⟩

end Vdovitsa
